import Mathlib

/-!
Shallow embedding of the serial transport layer of the GimbalControl
repository (src/js/gimbalSerial.js, first/authoritative revision), together
with theorems settling the frozen claims about it.

Conventions of the embedding:
* JS strings are Lean `String`s; all string operations used by the code
  (split on `';'`, trim, prefix test, substring search) are implemented as
  structurally recursive functions over `List Char` so that every theorem
  can be evaluated by `decide`/`rfl` on concrete inputs.
* JS dynamic values arising in this module are either numbers or strings
  (`JSVal`); `null`/`undefined` is `Option`.
* `Number(s)` is modelled on its integer fragment (`jsNumber?`): an optional
  minus sign followed by decimal digits.  Every string the protocol and the
  theorems feed to it falls in this fragment; `none` models `NaN`.
* Asynchronous, possibly-blocking, possibly-throwing operations are state
  transformers `LockState → Option (Except ε α × LockState)` where `none`
  models a wait that never resolves in the modelled schedule.
* The interleaving of the telemetry poller with a manual exclusive
  operation is a labelled transition system (`Step`/`Reachable`) whose
  transitions are the suspension points of the JS code.
-/

namespace GimbalControl

/-- A JS value occurring in this module: a number or a string.
(The numeric fragment used by the register protocol is integral.) -/
inductive JSVal where
  | num (n : Int)
  | str (s : String)
deriving DecidableEq, Repr

/-- Decimal value of a digit string (helper for `jsNumber?`). -/
def digitsVal (cs : List Char) : Nat :=
  cs.foldl (fun a c => a * 10 + (c.toNat - ('0').toNat)) 0

/-- Integer fragment of JS `Number(string)`: optional `-` then decimal
digits; `none` models `NaN`.  (`Number("") = 0` as in JS.) -/
def jsNumber? (s : String) : Option Int :=
  match s.toList with
  | [] => some 0
  | '-' :: rest =>
      if rest ≠ [] ∧ rest.all (·.isDigit) then some (-(digitsVal rest : Int)) else none
  | cs =>
      if cs.all (·.isDigit) then some ((digitsVal cs : Int)) else none

/-- `isNaN(Number(value)) ? value : Number(value)` — numeric-parse a token,
keeping it as a string on failure. -/
def jsToNumOrStr (s : String) : JSVal :=
  match jsNumber? s with
  | some n => JSVal.num n
  | none => JSVal.str s

/-- JS `String(v)` for the values of this module. -/
def jsString : JSVal → String
  | JSVal.num n => toString n
  | JSVal.str s => s

/-- `split(";")` on character lists, with JS semantics
(`"".split(';') = [""]`, empty tokens kept between adjacent separators). -/
def splitSemis : List Char → List (List Char)
  | [] => [[]]
  | c :: rest =>
      if c = ';' then [] :: splitSemis rest
      else
        match splitSemis rest with
        | t :: ts => (c :: t) :: ts
        | [] => [[c]]

/-- `input.split(";")` as Lean strings. -/
def jsSplitSemi (s : String) : List String :=
  (splitSemis s.toList).map (fun cs => ⟨cs⟩)

/-- JS `trim()` on a character list (whitespace from both ends). -/
def trimChars (cs : List Char) : List Char :=
  ((cs.dropWhile Char.isWhitespace).reverse.dropWhile Char.isWhitespace).reverse

/-- JS `String.prototype.trim()`. -/
def jsTrim (s : String) : String :=
  ⟨trimChars s.toList⟩

/-- First match of the regex `\[(\d+)\]` in a character list: the digit run
between the first `[` ... `]` bracket pair, scanning left to right. -/
def bracketNum : List Char → Option Nat
  | [] => none
  | '[' :: rest =>
      let ds := rest.takeWhile (·.isDigit)
      if ds ≠ [] ∧ (rest.drop ds.length).head? = some ']' then some (digitsVal ds)
      else bracketNum rest
  | _ :: rest => bracketNum rest

/-- The `for (let i = 0; i < parts.length; i += 2)` pairing loop of
`parsePairs`: token `2i` is the key, token `2i+1` the value; a trailing
unpaired key is dropped (`if (value === undefined) continue`). -/
def pairUp : List String → List (String × String)
  | k :: v :: rest => (k, v) :: pairUp rest
  | _ => []

/-- Key extraction of `parsePairs` (gimbalSerial.js lines 286-292): only for
keys starting with `R1[` is the bracketed integer extracted; otherwise the
raw token is kept. -/
def parseKey (rawKey : String) : JSVal :=
  if ("R1[".toList).isPrefixOf rawKey.toList then
    match bracketNum rawKey.toList with
    | some n => JSVal.num n
    | none => JSVal.str rawKey
  else JSVal.str rawKey

/-- `parsePairs` (gimbalSerial.js lines 275-300): split input on `";"`,
`filter(Boolean)` (drop empty tokens), pair consecutive tokens, extract
bracketed keys for `R1[`-prefixed keys, numeric-parse values. -/
def parsePairs (input : String) : List (JSVal × JSVal) :=
  let parts := (jsSplitSemi input).filter (· ≠ "")
  (pairUp parts).map (fun kv => (parseKey kv.1, jsToNumOrStr kv.2))

/-- `getValue` (gimbalSerial.js lines 318-319): value of the first pair
whose key stringifies equal to the queried key, else `null`. -/
def getValue (pairs : List (JSVal × JSVal)) (key : JSVal) : Option JSVal :=
  match pairs.find? (fun p => jsString p.1 == jsString key) with
  | some p => some p.2
  | none => none

/-! ### readMsg frame accumulation (gimbalSerial.js lines 112-159) -/

/-- `chunk.includes(';;')` — does a double semicolon occur inside this one
chunk? -/
def containsDoubleSemi : List Char → Bool
  | ';' :: ';' :: _ => true
  | _ :: rest => containsDoubleSemi rest
  | [] => false

/-- `readMsg`'s read timeout in milliseconds (line 127). -/
def readTimeoutMs : Nat := 40

/-- One resolution of `reader.read()` inside `readMsg`'s loop: either a
data chunk (`{ value, done: false }`) or end of stream
(`{ done: true }`). -/
inductive ReadEvent where
  | chunk (cs : List Char)
  | streamEnd
deriving DecidableEq, Repr

/-- The chunk-accumulation loop of `readMsg` (lines 132-147).  Each
`reader.read()` resolution is processed in order: on `done` the loop
breaks and the trimmed accumulation so far is returned (line 136 and
line 146); on a data chunk the chunk is appended to `response` and frame
completion is detected only when that chunk itself contains `";;"`
(line 142), returning the trimmed accumulation.  The argument list holds
the read resolutions that arrive before the timeout fires; `none` models
the loop still being in flight when the timeout promise wins the race. -/
def readLoop : List ReadEvent → List Char → Option (List Char)
  | [], _ => none
  | ReadEvent.streamEnd :: _, acc => some (trimChars acc)
  | ReadEvent.chunk c :: cs, acc =>
      if containsDoubleSemi c then some (trimChars (acc ++ c))
      else readLoop cs (acc ++ c)

/-- `readMsg`'s inner read (lines 122-156): the race of the read loop with
the timeout; a timeout is caught and the empty string is returned,
discarding whatever text was accumulated. -/
def readMsgModel (events : List ReadEvent) : List Char :=
  match readLoop events [] with
  | some r => r
  | none => []

/-! ### The serial lock (gimbalSerial.js lines 13-16, 43-73) -/

/-- The module-level coordination state of gimbalSerial.js. -/
structure LockState where
  serialLockDepth : Nat
  liveDataPauseRequested : Bool
  liveDataInProgress : Bool
deriving DecidableEq, Repr

/-- An asynchronous, possibly-throwing serial operation: `none` models a
wait that never resolves under the modelled (sequential) schedule. -/
abbrev SerialOp (ε α : Type) := LockState → Option (Except ε α × LockState)

/-- Lines 58-62: `serialLockDepth++`, and on the 0→1 transition set
`liveDataPauseRequested = true`. -/
def lockAcquire (s : LockState) : LockState :=
  let d := s.serialLockDepth + 1
  { s with serialLockDepth := d,
           liveDataPauseRequested := if d = 1 then true else s.liveDataPauseRequested }

/-- Lines 67-72 (the `finally` block):
`serialLockDepth = Math.max(0, serialLockDepth - 1)` (truncated
subtraction on `Nat`), and clear `liveDataPauseRequested` when the depth
returns to 0. -/
def lockRelease (s : LockState) : LockState :=
  let d := s.serialLockDepth - 1
  { s with serialLockDepth := d,
           liveDataPauseRequested := if d = 0 then false else s.liveDataPauseRequested }

/-- `runWithSerialLock` (lines 57-73): acquire; on the 0→1 transition
`await waitForLiveDataIdle()` — which never resolves in a sequential
schedule if a live-data cycle is in flight (`none`); run `fn`; release in
the `finally` path whether `fn` returned or threw, propagating its
result/exception unchanged. -/
def runWithSerialLock (fn : SerialOp ε α) : SerialOp ε α := fun s =>
  let s2 := lockAcquire s
  if s2.serialLockDepth = 1 ∧ s2.liveDataInProgress = true then none
  else
    match fn s2 with
    | none => none
    | some (r, s3) => some (r, lockRelease s3)

/-! ### Connection lifecycle (gimbalSerial.js lines 8-10, 25-37, 184-222) -/

/-- The three module-level connection handles (`serialPort`, `writer`,
`reader`); `none` is JS `null`/`undefined`.  Ports are identified by an
opaque tag. -/
structure ConnState where
  serialPort : Option Nat
  writer : Option Unit
  reader : Option Unit
deriving DecidableEq, Repr

/-- Which steps of the Web Serial API succeed or fail in a given run:
`requestedPort = none` models the user cancelling the device chooser. -/
structure PortEnv where
  requestedPort : Option Nat
  openFails : Bool
  getWriterFails : Bool
  getReaderFails : Bool
  closeFails : Bool
deriving DecidableEq, Repr

/-- `requestSerialPort` (lines 25-37): assign `serialPort`, open it, acquire
writer then reader; any throw lands in the catch, which only logs and
returns `false` — it clears nothing, so each global keeps whatever value it
had when the throw happened. -/
def requestSerialPort (env : PortEnv) (s : ConnState) : Bool × ConnState :=
  match env.requestedPort with
  | none => (false, s)
  | some p =>
      let s1 := { s with serialPort := some p }
      if env.openFails then (false, s1)
      else if env.getWriterFails then (false, s1)
      else
        let s2 := { s1 with writer := some () }
        if env.getReaderFails then (false, s2)
        else (true, { s2 with reader := some () })

/-- `reconnectSerialPort` (lines 184-222): bail out if there is no port;
null out `writer`/`reader`, close and reopen the same port, reacquire the
handles; on any throw the catch sets `serialPort = null` and returns
`false` (the other globals keep their current values). -/
def reconnectSerialPort (env : PortEnv) (s : ConnState) : Bool × ConnState :=
  match s.serialPort with
  | none => (false, s)
  | some p =>
      let s1 : ConnState := { s with writer := none, reader := none }
      if env.closeFails then (false, { s1 with serialPort := none })
      else if env.openFails then (false, { s1 with serialPort := none })
      else
        let s2 := { s1 with serialPort := some p }
        if env.getWriterFails then (false, { s2 with serialPort := none })
        else
          let s3 := { s2 with writer := some () }
          if env.getReaderFails then (false, { s3 with serialPort := none })
          else (true, { s3 with reader := some () })

/-! ### Telemetry sample processing (gimbalSerial.js lines 404-465) -/

/-- Lines 417-423: `tRead.split(';')` mapped through trim / empty→null /
numeric-parse-or-keep-string. -/
def parseTelemetryValues (tRead : String) : List (Option JSVal) :=
  (jsSplitSemi tRead).map (fun v =>
    let trimmed := jsTrim v
    if trimmed = "" then none else some (jsToNumOrStr trimmed))

/-- `typeof val === 'number' && !isNaN(val)` on a nullable value. -/
def isValidNumber : Option JSVal → Bool
  | some (JSVal.num _) => true
  | _ => false

/-- The seven telemetry fields `values[0] ?? null`, ..., `values[6] ?? null`
(lines 426-432). -/
def telemetryFields (tRead : String) : List (Option JSVal) :=
  let values := parseTelemetryValues tRead
  [values.getD 0 none, values.getD 1 none, values.getD 2 none,
   values.getD 3 none, values.getD 4 none, values.getD 5 none,
   values.getD 6 none]

/-- `allValuesValid` (lines 435-437). -/
def telemetryAllValid (tRead : String) : Bool :=
  (telemetryFields tRead).all isValidNumber

/-- Outcome of one telemetry tick's post-read processing:
`uiForward` is the sample handed to the `updateInputValue` collaborator
(`none` = the tick forwarded nothing), `recorded` is the row pushed to the
recording sink (`none` = nothing pushed), and `lastUIUpdateTime` is the
throttle timestamp after the tick. -/
structure TickOutcome where
  uiForward : Option (List (Option JSVal))
  recorded : Option (List (Option JSVal))
  lastUIUpdateTime : Int
deriving DecidableEq, Repr

/-- Lines 404-465 of `updateLiveData`, after the wire read returned
`tRead`: an empty read returns early; otherwise the seven fields are
extracted, the UI is updated only when all seven are valid numbers and at
least 100 ms passed since the last UI update, and — independently — when
`shouldRecordData` is set the (possibly invalid) field values are appended
to the recording rows. -/
def processTick (tRead : String) (lastUIUpdateTime now : Int)
    (shouldRecordData : Bool) : TickOutcome :=
  if tRead = "" then ⟨none, none, lastUIUpdateTime⟩
  else
    let fields := telemetryFields tRead
    let doUI := telemetryAllValid tRead ∧ now - lastUIUpdateTime ≥ 100
    { uiForward := if doUI then some fields else none
      recorded := if shouldRecordData then some [fields.getD 1 none,
        fields.getD 3 none, fields.getD 5 none, fields.getD 2 none,
        fields.getD 4 none, fields.getD 6 none] else none
      lastUIUpdateTime := if doUI then now else lastUIUpdateTime }

/-! ### Interleaving of the telemetry poller with an exclusive operation

A labelled transition system over the module state.  Transitions are the
suspension points of the JS code: a manual `runWithSerialLock` operation
acquires (lines 58-62), waits for the in-flight tick (line 62), performs
wire writes/reads inside its critical section, and releases (lines 67-72);
a timer firing of `updateLiveData` either skips synchronously at the guard
(line 383) or sets `liveDataInProgress` and issues its wire traffic
(lines 387-402).  One manual operation is modelled (nesting is covered by
`runWithSerialLock` separately). -/

/-- Phase of the manual exclusive operation: not started / awaiting
`waitForLiveDataIdle` / inside its critical section. -/
inductive MPhase where
  | idle
  | waiting
  | running
deriving DecidableEq, Repr

/-- Module coordination state plus the manual operation's phase. -/
structure SysState where
  serialLockDepth : Nat
  liveDataPauseRequested : Bool
  liveDataInProgress : Bool
  manual : MPhase
deriving DecidableEq, Repr

/-- Wire-level actions, tagged by which logical operation issued them. -/
inductive WireAct where
  | manualWrite
  | manualRead
  | telemetryWrite
  | telemetryRead
deriving DecidableEq, Repr

/-- Lines 58-62 seen from the system state: increment the depth, request
the pause on the 0→1 transition, and move to the `waiting` phase. -/
def sysAcquire (s : SysState) : SysState :=
  let d := s.serialLockDepth + 1
  { s with serialLockDepth := d,
           liveDataPauseRequested := if d = 1 then true else s.liveDataPauseRequested,
           manual := MPhase.waiting }

/-- Lines 67-72 seen from the system state: decrement (truncated at 0),
clear the pause request at depth 0, manual operation done. -/
def sysRelease (s : SysState) : SysState :=
  let d := s.serialLockDepth - 1
  { s with serialLockDepth := d,
           liveDataPauseRequested := if d = 0 then false else s.liveDataPauseRequested,
           manual := MPhase.idle }

/-- The tick guard `liveDataPauseRequested || liveDataInProgress`
(line 383). -/
def tickGuard (s : SysState) : Bool :=
  s.liveDataPauseRequested || s.liveDataInProgress

/-- State after the synchronous prefix of a freshly scheduled
`updateLiveData` tick (lines 382-393): if the guard holds, the tick
returns at once touching nothing; otherwise it sets
`liveDataInProgress = true` and starts its wire exchange. -/
def tickAttemptState (s : SysState) : SysState :=
  if tickGuard s then s else { s with liveDataInProgress := true }

/-- Wire actions issued by that synchronous prefix: none when skipping,
the `readMsg` command write when proceeding. -/
def tickAttemptActs (s : SysState) : List WireAct :=
  if tickGuard s then [] else [WireAct.telemetryWrite]

/-- One scheduler step, labelled with the wire actions it performs. -/
inductive Step : SysState → List WireAct → SysState → Prop where
  | acquire (s) (h : s.manual = MPhase.idle) : Step s [] (sysAcquire s)
  | proceed (s) (h : s.manual = MPhase.waiting) (h2 : s.liveDataInProgress = false) :
      Step s [] { s with manual := MPhase.running }
  | manualWire (s a) (h : s.manual = MPhase.running)
      (ha : a = WireAct.manualWrite ∨ a = WireAct.manualRead) : Step s [a] s
  | release (s) (h : s.manual = MPhase.running) : Step s [] (sysRelease s)
  | tickAttempt (s) : Step s (tickAttemptActs s) (tickAttemptState s)
  | tickRead (s) (h : s.liveDataInProgress = true) : Step s [WireAct.telemetryRead] s
  | tickEnd (s) (h : s.liveDataInProgress = true) :
      Step s [] { s with liveDataInProgress := false }

/-- Initial module state: depth 0, no pause request, no tick in flight. -/
def initSys : SysState := ⟨0, false, false, MPhase.idle⟩

/-- States the system can reach from the initial state. -/
inductive Reachable : SysState → Prop where
  | init : Reachable initSys
  | step {s acts s'} : Reachable s → Step s acts s' → Reachable s'

/-- Reachability invariant tying the lock state to the phases: the pause
request is up exactly while the manual operation is active, and the manual
critical section excludes an in-flight tick. -/
def SysInv (s : SysState) : Prop :=
  (s.manual = MPhase.idle → s.serialLockDepth = 0 ∧ s.liveDataPauseRequested = false) ∧
  (s.manual ≠ MPhase.idle → s.serialLockDepth = 1 ∧ s.liveDataPauseRequested = true) ∧
  (s.manual = MPhase.running → s.liveDataInProgress = false)

theorem sysInv_step {s acts s'} (hs : SysInv s) (hstep : Step s acts s') : SysInv s' := by
  obtain ⟨hidle, hbusy, hrun⟩ := hs
  cases hstep with
  | acquire h =>
      obtain ⟨hd, hp⟩ := hidle h
      refine ⟨fun hc => by simp [sysAcquire] at hc, fun _ => ?_, fun hc => by simp [sysAcquire] at hc⟩
      simp [sysAcquire, hd, hp]
  | proceed h h2 =>
      obtain ⟨hd, hp⟩ := hbusy (by simp [h])
      exact ⟨fun hc => by simp at hc, fun _ => ⟨hd, hp⟩, fun _ => h2⟩
  | manualWire a h ha => exact ⟨hidle, hbusy, hrun⟩
  | release h =>
      obtain ⟨hd, _⟩ := hbusy (by simp [h])
      refine ⟨fun _ => ?_, fun hc => by simp [sysRelease] at hc, fun hc => by simp [sysRelease] at hc⟩
      simp [sysRelease, hd]
  | tickAttempt =>
      by_cases hg : tickGuard s = true
      · simpa [tickAttemptState, hg] using ⟨hidle, hbusy, hrun⟩
      · have hp : s.liveDataPauseRequested = false := by
          simp [tickGuard] at hg; exact hg.1
        have hm : s.manual = MPhase.idle := by
          by_contra hc
          exact absurd (hbusy hc).2 (by simp [hp])
        refine ⟨fun _ => ?_, fun hc => ?_, fun hc => ?_⟩
        · simpa [tickAttemptState, hg] using hidle hm
        · exact absurd hm (by simpa [tickAttemptState, hg] using hc)
        · rw [tickAttemptState, if_neg hg] at hc
          simp at hc
          rw [hm] at hc
          cases hc
  | tickRead h => exact ⟨hidle, hbusy, hrun⟩
  | tickEnd h =>
      refine ⟨fun hc => ?_, fun hc => ?_, fun _ => rfl⟩
      · simpa using hidle (by simpa using hc)
      · simpa using hbusy (by simpa using hc)

theorem reachable_sysInv {s : SysState} (h : Reachable s) : SysInv s := by
  induction h with
  | init => exact ⟨fun _ => ⟨rfl, rfl⟩, fun hc => absurd rfl hc, fun hc => by cases hc⟩
  | step _ hstep ih => exact sysInv_step ih hstep

/-! ## Helper lemmas -/

theorem getValue_nil (key : JSVal) : getValue [] key = none := rfl

theorem getValue_cons (k v : JSVal) (rest : List (JSVal × JSVal)) (key : JSVal) :
    getValue ((k, v) :: rest) key =
      if jsString k = jsString key then some v else getValue rest key := by
  by_cases h : jsString k = jsString key
  · simp [getValue, List.find?, h]
  · simp only [getValue, List.find?]
    rw [show (jsString (k, v).1 == jsString key) = false by simpa using h]
    simp [h]

theorem getValue_eq_none_iff (pairs : List (JSVal × JSVal)) (key : JSVal) :
    getValue pairs key = none ↔ ∀ p ∈ pairs, jsString p.1 ≠ jsString key := by
  induction pairs with
  | nil => simp [getValue_nil]
  | cons p rest ih =>
      obtain ⟨k, v⟩ := p
      rw [getValue_cons]
      by_cases h : jsString k = jsString key
      · simp [h]
      · simp [h, ih]

theorem readLoop_eq_none {chunks : List (List Char)}
    (h : ∀ c ∈ chunks, containsDoubleSemi c = false) :
    ∀ acc, readLoop (chunks.map ReadEvent.chunk) acc = none := by
  induction chunks with
  | nil => intro _; rfl
  | cons c cs ih =>
      intro acc
      have hc := h c (by simp)
      rw [List.map_cons, readLoop, if_neg (by simp [hc])]
      exact ih (fun x hx => h x (by simp [hx])) _

theorem readLoop_finds {c : List Char} (hc : containsDoubleSemi c = true) :
    ∀ (pre : List (List Char)) (post : List ReadEvent),
      (∀ x ∈ pre, containsDoubleSemi x = false) →
      ∀ acc, readLoop (pre.map ReadEvent.chunk ++ ReadEvent.chunk c :: post) acc =
        some (trimChars (acc ++ (pre.flatten ++ c))) := by
  intro pre
  induction pre with
  | nil =>
      intro post _ acc
      simp [readLoop, hc]
  | cons x xs ih =>
      intro post hpre acc
      have hx := hpre x (by simp)
      rw [List.map_cons, List.cons_append, readLoop, if_neg (by simp [hx])]
      rw [ih post (fun y hy => hpre y (by simp [hy])) (acc ++ x)]
      simp [List.append_assoc]

theorem readLoop_streamEnd :
    ∀ (pre : List (List Char)) (post : List ReadEvent),
      (∀ x ∈ pre, containsDoubleSemi x = false) →
      ∀ acc, readLoop (pre.map ReadEvent.chunk ++ ReadEvent.streamEnd :: post) acc =
        some (trimChars (acc ++ pre.flatten)) := by
  intro pre
  induction pre with
  | nil =>
      intro post _ acc
      simp [readLoop]
  | cons x xs ih =>
      intro post hpre acc
      have hx := hpre x (by simp)
      rw [List.map_cons, List.cons_append, readLoop, if_neg (by simp [hx])]
      rw [ih post (fun y hy => hpre y (by simp [hy])) (acc ++ x)]
      simp [List.append_assoc]

/-! ## The claims -/

/-- Claim C6 counterexample: `parsePairs` splits only on `;`, never on `=`,
so on the input `"R1[10]=0;R1[31]=-1226;"` the two `=`-joined tokens become
one key/value pair and the result is NOT `[(10, 0), (31, -1226)]`. -/
theorem parsePairs_eq_example_fails :
    parsePairs "R1[10]=0;R1[31]=-1226;" ≠
      [(JSVal.num 10, JSVal.num 0), (JSVal.num 31, JSVal.num (-1226))] ∧
    parsePairs "R1[10]=0;R1[31]=-1226;" =
      [(JSVal.num 10, JSVal.str "R1[31]=-1226")] := by decide

/-- Claim C6 (amended): with key and value as separate `;`-delimited
tokens, `parsePairs "R1[10];0;R1[31];-1226;"` returns the ordered pair list
`[(10, 0), (31, -1226)]`, per the general rule (split on `;`, drop empty
tokens, pair consecutive tokens, bracketed integer as key for `R1[` keys,
numeric-parse values); a trailing unpaired key is silently dropped. -/
theorem parsePairs_register_example :
    parsePairs "R1[10];0;R1[31];-1226;" =
      [(JSVal.num 10, JSVal.num 0), (JSVal.num 31, JSVal.num (-1226))] ∧
    parsePairs "R1[10];0;R1[31];" = [(JSVal.num 10, JSVal.num 0)] := by decide

/-- Claim C7 counterexample: `parsePairs "foo=bar;"` yields a single token
`"foo=bar"` with no paired value, so the pair is dropped and
`getValue(parsePairs("foo=bar;"), "foo")` is `null`, not `"bar"`. -/
theorem getValue_eq_example_fails :
    getValue (parsePairs "foo=bar;") (JSVal.str "foo") ≠ some (JSVal.str "bar") ∧
    getValue (parsePairs "foo=bar;") (JSVal.str "foo") = none := by decide

/-- Claim C7 (amended): with key and value as separate tokens,
`getValue(parsePairs("foo;bar;"), "foo")` equals the string `"bar"`; in
general `getValue` returns the value of the first pair whose key
stringifies equal to the queried key, and `null` exactly when no pair's
key stringifies equal to it. -/
theorem getValue_first_match (pairs : List (JSVal × JSVal)) (key k v : JSVal)
    (rest : List (JSVal × JSVal)) :
    getValue (parsePairs "foo;bar;") (JSVal.str "foo") = some (JSVal.str "bar") ∧
    getValue [] key = none ∧
    getValue ((k, v) :: rest) key =
      (if jsString k = jsString key then some v else getValue rest key) ∧
    (getValue pairs key = none ↔ ∀ p ∈ pairs, jsString p.1 ≠ jsString key) :=
  ⟨by decide, getValue_nil key, getValue_cons k v rest key, getValue_eq_none_iff pairs key⟩

/-- Claim C7 witness: the theorem instantiated at concrete pair lists. -/
theorem getValue_first_match_witness :
    getValue (parsePairs "foo;bar;") (JSVal.str "foo") = some (JSVal.str "bar") ∧
    (getValue [(JSVal.str "a", JSVal.num 1)] (JSVal.str "b") = none ↔
      ∀ p ∈ [(JSVal.str "a", JSVal.num 1)], jsString p.1 ≠ jsString (JSVal.str "b")) :=
  ⟨(getValue_first_match [] (JSVal.str "x") (JSVal.str "x") (JSVal.num 0) []).1,
   (getValue_first_match [(JSVal.str "a", JSVal.num 1)] (JSVal.str "b")
      (JSVal.str "x") (JSVal.num 0) []).2.2.2⟩

/-- Claim C10 counterexample: a response whose `";;"` terminator is split
across two chunks does NOT make the read end only via the 40 ms timeout —
if the stream then ends (`reader.read()` resolves with `done: true`,
line 135-136), `readMsg` returns the trimmed accumulated text `"0;;1"`,
non-empty and without a chunk-internal terminator, before and without the
timeout.  So "the read ends only via the 40 ms timeout, and on that
timeout readMsg returns the empty string" is false at this input. -/
theorem readMsg_stream_end_returns_text :
    containsDoubleSemi ['0', ';'] = false ∧
    containsDoubleSemi [';', '1'] = false ∧
    readMsgModel [ReadEvent.chunk ['0', ';'], ReadEvent.chunk [';', '1'],
      ReadEvent.streamEnd] = ['0', ';', ';', '1'] ∧
    readMsgModel [ReadEvent.chunk ['0', ';'], ReadEvent.chunk [';', '1'],
      ReadEvent.streamEnd] ≠ [] := by decide

/-- Claim C10 (amended): `readMsg` detects frame completion only when
`";;"` lies entirely within a single received chunk — the check is on the
chunk, not on the accumulated text — so a terminator split across two
chunks is never detected.  When no single chunk contains `";;"`, the read
ends in one of exactly two other ways: if the stream ends (`done`), the
trimmed accumulated text is returned as is; otherwise the read ends only
via the 40 ms timeout, and on that timeout `readMsg` returns the empty
string, discarding any text already accumulated. -/
theorem readMsg_completion_modes :
    readTimeoutMs = 40 ∧
    (∀ chunks : List (List Char),
      (∀ c ∈ chunks, containsDoubleSemi c = false) →
      readMsgModel (chunks.map ReadEvent.chunk) = []) ∧
    (∀ (pre : List (List Char)) (c : List Char) (post : List ReadEvent),
      (∀ x ∈ pre, containsDoubleSemi x = false) → containsDoubleSemi c = true →
      readMsgModel (pre.map ReadEvent.chunk ++ ReadEvent.chunk c :: post) =
        trimChars (pre.flatten ++ c)) ∧
    (∀ (pre : List (List Char)) (post : List ReadEvent),
      (∀ x ∈ pre, containsDoubleSemi x = false) →
      readMsgModel (pre.map ReadEvent.chunk ++ ReadEvent.streamEnd :: post) =
        trimChars pre.flatten) := by
  refine ⟨rfl, fun chunks h => ?_, fun pre c post hpre hc => ?_,
    fun pre post hpre => ?_⟩
  · rw [readMsgModel, readLoop_eq_none h]
  · rw [readMsgModel, readLoop_finds hc pre post hpre]
    simp
  · rw [readMsgModel, readLoop_streamEnd pre post hpre]
    simp

/-- Claim C10 witness: with no stream end, the split terminator `"0;"` /
`";1"` is discarded by the timeout and the empty string returned; a chunk
containing `";;"` completes the frame with the accumulated text; a stream
end returns the accumulated terminator-less text. -/
theorem readMsg_completion_modes_witness :
    readMsgModel [ReadEvent.chunk ['0', ';'], ReadEvent.chunk [';', '1']] = [] ∧
    readMsgModel [ReadEvent.chunk ['0'], ReadEvent.chunk [';', ';']] =
      ['0', ';', ';'] ∧
    readMsgModel [ReadEvent.chunk ['0', ';'], ReadEvent.streamEnd] = ['0', ';'] := by
  have h := readMsg_completion_modes
  refine ⟨?_, ?_, ?_⟩
  · have h1 := h.2.1 [['0', ';'], [';', '1']] (by decide)
    simpa using h1
  · have h2 := h.2.2.1 [['0']] [';', ';'] [] (by decide) (by decide)
    simpa using h2
  · have h3 := h.2.2.2 [['0', ';']] [] (by decide)
    simpa using h3

/-- Claim C2: a nested `runWithSerialLock(() => runWithSerialLock(inner))`
from an unlocked state with no tick in flight completes without deadlock —
the inner acquisition sees depth 2, not 1, so it never reaches the
`waitForLiveDataIdle` wait — and afterwards `serialLockDepth` is back to 0
and `liveDataPauseRequested` is false.  `inner` is assumed to complete and
to leave the lock depth as it found it (every operation in the repository
does: only `runWithSerialLock` itself touches the depth, and it restores
it). -/
theorem nested_runWithSerialLock_completes {α : Type} (inner : SerialOp String α)
    (s : LockState) (r : Except String α) (s' : LockState)
    (hdepth : s.serialLockDepth = 0)
    (hidle : s.liveDataInProgress = false)
    (hinner : inner (lockAcquire (lockAcquire s)) = some (r, s'))
    (hpreserve : s'.serialLockDepth = 2) :
    runWithSerialLock (runWithSerialLock inner) s =
      some (r, { s' with serialLockDepth := 0, liveDataPauseRequested := false }) := by
  have ha1 : (lockAcquire s).serialLockDepth = 1 := by simp [lockAcquire, hdepth]
  have ha2 : (lockAcquire (lockAcquire s)).serialLockDepth = 2 := by
    simp [lockAcquire, hdepth]
  have hip : (lockAcquire s).liveDataInProgress = false := by simp [lockAcquire, hidle]
  rw [runWithSerialLock, if_neg (by simp [hip])]
  rw [runWithSerialLock, if_neg (by simp [ha2])]
  rw [hinner]
  have hr1 : (lockRelease s').serialLockDepth = 1 := by simp [lockRelease, hpreserve]
  simp only [lockRelease, hpreserve, hr1]
  norm_num

/-- Claim C2 witness: a concrete inner operation run through the nested
lock from the initial module state. -/
theorem nested_runWithSerialLock_completes_witness :
    runWithSerialLock
      (runWithSerialLock (fun t => some ((Except.ok 42 : Except String Nat), t)))
      ⟨0, false, false⟩ = some (Except.ok 42, ⟨0, false, false⟩) := by
  have h := nested_runWithSerialLock_completes
    (fun t => some ((Except.ok 42 : Except String Nat), t))
    ⟨0, false, false⟩ (Except.ok 42) ⟨2, true, false⟩ rfl rfl rfl rfl
  simpa using h

/-- Claim C3: if the operation throws, `runWithSerialLock` still releases
the lock — the depth is decremented by the `finally`-path `lockRelease`,
the pause request is cleared whenever the depth returns to 0 — and the
exception propagates unchanged to the caller.  The acquisition is assumed
not to block (no tick in flight when taking the lock from depth 0). -/
theorem runWithSerialLock_releases_on_throw {α : Type} (fn : SerialOp String α)
    (s s3 : LockState) (e : String)
    (hnoblock : s.serialLockDepth = 0 → s.liveDataInProgress = false)
    (hthrow : fn (lockAcquire s) = some (Except.error e, s3)) :
    runWithSerialLock fn s = some (Except.error e, lockRelease s3) ∧
    (lockRelease s3).serialLockDepth = s3.serialLockDepth - 1 ∧
    ((lockRelease s3).serialLockDepth = 0 →
      (lockRelease s3).liveDataPauseRequested = false) := by
  refine ⟨?_, rfl, ?_⟩
  · rw [runWithSerialLock, if_neg ?_, hthrow]
    rintro ⟨h1, h2⟩
    have hd0 : s.serialLockDepth = 0 := by
      have : s.serialLockDepth + 1 = 1 := by simpa [lockAcquire] using h1
      omega
    have : (lockAcquire s).liveDataInProgress = false := by
      simp [lockAcquire, hnoblock hd0]
    simp [this] at h2
  · intro h
    simp only [lockRelease] at h ⊢
    simp [h]

/-- Claim C3 witness: a throwing operation run under the lock from the
initial module state releases the lock and surfaces the exception. -/
theorem runWithSerialLock_releases_on_throw_witness :
    runWithSerialLock (fun t => some ((Except.error "boom" : Except String Nat), t))
      ⟨0, false, false⟩ = some (Except.error "boom", ⟨0, false, false⟩) := by
  have h := runWithSerialLock_releases_on_throw
    (fun t => some ((Except.error "boom" : Except String Nat), t))
    ⟨0, false, false⟩ ⟨1, true, false⟩ "boom" (fun _ => rfl) rfl
  simpa using h.1

/-- Claim C8: when `reconnectSerialPort` fails to close or reopen the port,
it reports the failure (returns false) and leaves the session fully
disconnected — `serialPort`, `writer` and `reader` are all cleared — so a
subsequent `requestSerialPort` whose steps all succeed opens cleanly. -/
theorem reconnect_reopen_failure_disconnects (env : PortEnv) (s : ConnState) (p : Nat)
    (hport : s.serialPort = some p)
    (hfail : env.closeFails = true ∨ env.openFails = true) :
    reconnectSerialPort env s = (false, ⟨none, none, none⟩) ∧
    (∀ q : Nat, requestSerialPort ⟨some q, false, false, false, false⟩
      ⟨none, none, none⟩ = (true, ⟨some q, some (), some ()⟩)) := by
  refine ⟨?_, fun q => rfl⟩
  rw [reconnectSerialPort, hport]
  rcases hfail with h | h
  · simp [h]
  · rcases hc : env.closeFails with _ | _ <;> simp [h, hc]

/-- Claim C8 witness: reopen failure on a fully connected session. -/
theorem reconnect_reopen_failure_disconnects_witness :
    reconnectSerialPort ⟨some 1, true, false, false, false⟩
      ⟨some 0, some (), some ()⟩ = (false, ⟨none, none, none⟩) ∧
    requestSerialPort ⟨some 5, false, false, false, false⟩
      ⟨none, none, none⟩ = (true, ⟨some 5, some (), some ()⟩) := by
  have h := reconnect_reopen_failure_disconnects ⟨some 1, true, false, false, false⟩
    ⟨some 0, some (), some ()⟩ 0 rfl (Or.inr rfl)
  exact ⟨h.1, h.2 5⟩

/-- Claim C9 counterexample: when the chooser succeeds but `open` fails,
`requestSerialPort`'s catch block clears nothing, so the failed call
returns false yet `serialPort` retains the chosen port handle — the
session is NOT left with no `serialPort` handle retained. -/
theorem requestSerialPort_open_failure_retains_port :
    requestSerialPort ⟨some 0, true, false, false, false⟩ ⟨none, none, none⟩ =
      (false, ⟨some 0, none, none⟩) ∧
    (requestSerialPort ⟨some 0, true, false, false, false⟩
      ⟨none, none, none⟩).2.serialPort ≠ none := by decide

/-- Claim C9 (amended): whenever `requestSerialPort` fails because the user
cancels the device chooser or the port fails to open, the failure is
surfaced to the caller (false is returned) and, starting from a fresh
`Disconnected` state, no `writer` or `reader` handle is retained; the
`serialPort` slot, however, is left holding exactly the chooser's result —
none on cancel, but the chosen port when `open` failed. -/
theorem requestSerialPort_failure_state (env : PortEnv)
    (hfail : env.requestedPort = none ∨ env.openFails = true) :
    requestSerialPort env ⟨none, none, none⟩ =
      (false, ⟨env.requestedPort, none, none⟩) := by
  rcases hfail with h | h
  · simp [requestSerialPort, h]
  · rcases hr : env.requestedPort with _ | p
    · simp [requestSerialPort, hr]
    · simp [requestSerialPort, hr, h]

/-- Claim C9 witness: open failure after a successful chooser. -/
theorem requestSerialPort_failure_state_witness :
    requestSerialPort ⟨some 3, true, false, false, false⟩ ⟨none, none, none⟩ =
      (false, ⟨some 3, none, none⟩) :=
  requestSerialPort_failure_state ⟨some 3, true, false, false, false⟩ (Or.inr rfl)

/-! Helper lemmas about one tick's post-read processing. -/

theorem processTick_uiForward_accepted (t : String) (l n : Int) (r : Bool)
    (hne : t ≠ "") (hv : telemetryAllValid t = true) (ht : n - l ≥ 100) :
    (processTick t l n r).uiForward = some (telemetryFields t) := by
  rw [processTick, if_neg hne]
  simp [hv, ht]

theorem processTick_lastUI_accepted (t : String) (l n : Int) (r : Bool)
    (hne : t ≠ "") (hv : telemetryAllValid t = true) (ht : n - l ≥ 100) :
    (processTick t l n r).lastUIUpdateTime = n := by
  rw [processTick, if_neg hne]
  simp [hv, ht]

theorem processTick_uiForward_throttled (t : String) (l n : Int) (r : Bool)
    (hne : t ≠ "") (ht : ¬ n - l ≥ 100) :
    (processTick t l n r).uiForward = none := by
  rw [processTick, if_neg hne]
  simp [ht]

theorem processTick_recorded_nonempty (t : String) (l n : Int)
    (hne : t ≠ "") : (processTick t l n true).recorded.isSome = true := by
  rw [processTick, if_neg hne]
  simp

/-- Claim C4 counterexample: the response `"0;1;2;3;4;5;6;x"` carries eight
semicolon-delimited fields, the eighth of which does not parse as a number,
yet the tick accepts it and forwards the first seven values to the UI — so
acceptance does NOT require exactly seven fields with every field numeric. -/
theorem telemetry_extra_field_accepted :
    (jsSplitSemi "0;1;2;3;4;5;6;x").length = 8 ∧
    jsToNumOrStr "x" = JSVal.str "x" ∧
    (processTick "0;1;2;3;4;5;6;x" 0 200 false).uiForward =
      some [some (JSVal.num 0), some (JSVal.num 1), some (JSVal.num 2),
            some (JSVal.num 3), some (JSVal.num 4), some (JSVal.num 5),
            some (JSVal.num 6)] := by decide

/-- Claim C4 (amended): a telemetry tick forwards a sample to the UI
(`updateInputValue`) only when the response is non-empty and each of its
FIRST SEVEN semicolon-delimited fields is present and parses as a number;
fields beyond the seventh are ignored and unchecked.  In particular a
response carrying only 5 of the 7 expected fields is discarded with no
partial UI update. -/
theorem ui_forward_requires_first_seven_valid (tRead : String) (l n : Int) (r : Bool)
    (h : (processTick tRead l n r).uiForward.isSome = true) :
    (telemetryAllValid tRead = true ∧ tRead ≠ "") ∧
    (∀ (l2 n2 : Int) (r2 : Bool),
      (processTick "0;1;2;3;4" l2 n2 r2).uiForward = none) := by
  constructor
  · by_cases ht : tRead = ""
    · rw [processTick, if_pos ht] at h
      simp at h
    · refine ⟨?_, ht⟩
      by_cases hv : telemetryAllValid tRead = true
      · exact hv
      · have hv' : telemetryAllValid tRead = false := by simpa using hv
        rw [processTick, if_neg ht] at h
        simp [hv'] at h
  · intro l2 n2 r2
    have hv : telemetryAllValid "0;1;2;3;4" = false := by decide
    rw [processTick, if_neg (by decide)]
    simp [hv]

/-- Claim C4 witness: the theorem applied to an accepted seven-field
response, plus the five-field discard at a concrete time. -/
theorem ui_forward_requires_first_seven_valid_witness :
    (telemetryAllValid "0;1;2;3;4;5;6" = true ∧ ("0;1;2;3;4;5;6" : String) ≠ "") ∧
    (processTick "0;1;2;3;4" 0 200 true).uiForward = none :=
  ⟨(ui_forward_requires_first_seven_valid "0;1;2;3;4;5;6" 0 200 false (by decide)).1,
   (ui_forward_requires_first_seven_valid "0;1;2;3;4;5;6" 0 200 false (by decide)).2
      0 200 true⟩

/-- Claim C5 counterexample: with the recording flag set, the invalid
five-field response `"0;1;2;3;4"` is NOT accepted (no UI forward) yet its
values — with `null` for the two missing fields — are still appended to
the recording rows: recording is not limited to accepted samples. -/
theorem telemetry_invalid_sample_recorded :
    telemetryAllValid "0;1;2;3;4" = false ∧
    (processTick "0;1;2;3;4" 0 200 true).uiForward = none ∧
    (processTick "0;1;2;3;4" 0 200 true).recorded =
      some [some (JSVal.num 1), some (JSVal.num 3), none,
            some (JSVal.num 2), some (JSVal.num 4), none] := by decide

/-- Claim C5 (amended): of two accepted samples arriving less than the
100 ms throttle interval apart, only the first is forwarded to the UI
collaborator — the second tick's UI update is skipped — while with the
recording flag set BOTH ticks append to the recording sink: recording is
independent of the UI throttle (and, per the counterexample, applies to
every non-empty-response sample, accepted or not). -/
theorem telemetry_throttle_and_recording (t1 t2 : String) (last0 now1 now2 : Int)
    (h1v : telemetryAllValid t1 = true) (h1ne : t1 ≠ "")
    (h1t : now1 - last0 ≥ 100)
    (_h2v : telemetryAllValid t2 = true) (h2ne : t2 ≠ "")
    (h2t : now2 - now1 < 100) :
    (processTick t1 last0 now1 true).uiForward.isSome = true ∧
    (processTick t2 (processTick t1 last0 now1 true).lastUIUpdateTime
      now2 true).uiForward = none ∧
    (processTick t1 last0 now1 true).recorded.isSome = true ∧
    (processTick t2 (processTick t1 last0 now1 true).lastUIUpdateTime
      now2 true).recorded.isSome = true := by
  have hlast : (processTick t1 last0 now1 true).lastUIUpdateTime = now1 :=
    processTick_lastUI_accepted t1 last0 now1 true h1ne h1v h1t
  refine ⟨?_, ?_, ?_, ?_⟩
  · rw [processTick_uiForward_accepted t1 last0 now1 true h1ne h1v h1t]
    rfl
  · rw [hlast]
    exact processTick_uiForward_throttled t2 now1 now2 true h2ne (by omega)
  · exact processTick_recorded_nonempty t1 last0 now1 h1ne
  · rw [hlast]
    exact processTick_recorded_nonempty t2 now1 now2 h2ne

/-- Claim C5 witness: two accepted seven-field samples 50 ms apart. -/
theorem telemetry_throttle_and_recording_witness :
    (processTick "0;1;2;3;4;5;6" 0 100 true).uiForward.isSome = true ∧
    (processTick "0;1;2;3;4;5;6"
      (processTick "0;1;2;3;4;5;6" 0 100 true).lastUIUpdateTime
      150 true).uiForward = none ∧
    (processTick "0;1;2;3;4;5;6" 0 100 true).recorded.isSome = true ∧
    (processTick "0;1;2;3;4;5;6"
      (processTick "0;1;2;3;4;5;6" 0 100 true).lastUIUpdateTime
      150 true).recorded.isSome = true :=
  telemetry_throttle_and_recording "0;1;2;3;4;5;6" "0;1;2;3;4;5;6" 0 100 150
    (by decide) (by decide) (by norm_num) (by decide) (by decide) (by norm_num)

/-- Claim C1: in every reachable system state in which the manual exclusive
operation holds the lock (`serialLockDepth > 0`), the pause request is up,
and a telemetry tick scheduled there observes it and skips synchronously —
it changes nothing and performs zero wire writes or reads.  Moreover the
telemetry poll and the manual operation never interleave on the wire: no
step of any reachable state issues a telemetry wire action while the
manual operation is inside its critical section, and no step issues a
manual wire action while a telemetry cycle is in flight. -/
theorem telemetry_excluded_while_lock_held (s : SysState) (hreach : Reachable s) :
    (s.serialLockDepth > 0 →
      s.liveDataPauseRequested = true ∧
      tickAttemptState s = s ∧ tickAttemptActs s = []) ∧
    (∀ acts s', Step s acts s' →
      ((WireAct.telemetryWrite ∈ acts ∨ WireAct.telemetryRead ∈ acts) →
        s.manual ≠ MPhase.running) ∧
      ((WireAct.manualWrite ∈ acts ∨ WireAct.manualRead ∈ acts) →
        s.liveDataInProgress = false)) := by
  obtain ⟨hidle, hbusy, hrun⟩ := reachable_sysInv hreach
  constructor
  · intro hd
    have hm : s.manual ≠ MPhase.idle := by
      intro hc
      have := (hidle hc).1
      omega
    have hp : s.liveDataPauseRequested = true := (hbusy hm).2
    have hg : tickGuard s = true := by simp [tickGuard, hp]
    exact ⟨hp, by simp [tickAttemptState, hg], by simp [tickAttemptActs, hg]⟩
  · intro acts s' hstep
    cases hstep with
    | acquire h =>
        exact ⟨fun hmem => by rcases hmem with h' | h' <;> simp at h',
               fun hmem => by rcases hmem with h' | h' <;> simp at h'⟩
    | proceed h h2 =>
        exact ⟨fun hmem => by rcases hmem with h' | h' <;> simp at h',
               fun hmem => by rcases hmem with h' | h' <;> simp at h'⟩
    | manualWire a h ha =>
        refine ⟨fun hmem => ?_, fun _ => hrun h⟩
        rcases hmem with h' | h' <;> rcases ha with h'' | h'' <;>
          simp [h''] at h'
    | release h =>
        exact ⟨fun hmem => by rcases hmem with h' | h' <;> simp at h',
               fun hmem => by rcases hmem with h' | h' <;> simp at h'⟩
    | tickAttempt =>
        by_cases hg : tickGuard s = true
        · refine ⟨fun hmem => ?_, fun hmem => ?_⟩ <;>
            · rw [tickAttemptActs, if_pos hg] at hmem
              rcases hmem with h' | h' <;> simp at h'
        · have hp : s.liveDataPauseRequested = false := by
            simp [tickGuard] at hg
            exact hg.1
          have hm : s.manual = MPhase.idle := by
            by_contra hc
            exact absurd (hbusy hc).2 (by simp [hp])
          refine ⟨fun _ => by simp [hm], fun hmem => ?_⟩
          rw [tickAttemptActs, if_neg hg] at hmem
          rcases hmem with h' | h' <;> simp at h'
    | tickRead h =>
        refine ⟨fun _ => fun hc => ?_, fun hmem => ?_⟩
        · exact absurd (hrun hc) (by simp [h])
        · rcases hmem with h' | h' <;> simp at h'
    | tickEnd h =>
        exact ⟨fun hmem => by rcases hmem with h' | h' <;> simp at h',
               fun hmem => by rcases hmem with h' | h' <;> simp at h'⟩

/-- Claim C1 witness: after a manual `runWithSerialLock` acquisition from
the initial state, the lock is held, the pause request is observed, and a
tick scheduled in that window is a no-op with zero wire actions. -/
theorem telemetry_excluded_while_lock_held_witness :
    (sysAcquire initSys).liveDataPauseRequested = true ∧
    tickAttemptState (sysAcquire initSys) = sysAcquire initSys ∧
    tickAttemptActs (sysAcquire initSys) = [] :=
  (telemetry_excluded_while_lock_held (sysAcquire initSys)
    (Reachable.step Reachable.init (Step.acquire initSys rfl))).1 (by decide)

end GimbalControl
